import Mathlib

/-!
Verification of the navigation core of the fake-driver-simulator repository.

Shallow embedding conventions:
* JavaScript numbers are modelled as exact rationals (`ℚ`); the algorithms
  under verification only add, subtract, multiply, divide and compare, so the
  embedding is the ideal-arithmetic reading the specification itself uses
  ("within floating tolerance").
* The transcendental geographic helpers (`haversineDistance`,
  `calculateBearing`, `calculateDistance` — sine/cosine/atan2 based) are not
  recomputed; they enter every algorithm only through the values
  `dist p q` / `bearing p q`, so each embedded function takes the
  corresponding function as an explicit parameter.
* `while` loops whose termination is by a structural bound are written with an
  explicit fuel argument that provably never runs out on the states the
  simulator reaches; fuel-irrelevance lemmas are proved where used.
* Strings are modelled as lists of character codes (`List Nat`), matching the
  `charCodeAt` access pattern of the decoder.
-/

namespace FakeDriverSim

/-- `Coordinates` from src/types.ts: a latitude/longitude pair. -/
structure Coordinates where
  lat : ℚ
  lng : ℚ
deriving DecidableEq, Repr

namespace Polyline

/-!  src/polyline.ts  -/

/-- The inner `do { byte = encoded.charCodeAt(index++) - 63; ... } while (byte >= 0x20)`
loop of `decodePolyline`, reading one varint.  The absolute index is realised by
passing the remaining suffix of the string; the returned `Nat` is the number of
characters consumed (the amount `index` advanced).  Reading past the end of the
string (`charCodeAt` returning `NaN` in JS) is the `[]` case: `NaN & 0x1f = 0`
contributes nothing and `NaN >= 0x20` is false, so the loop exits with the
index advanced once.  `result |= (byte & 0x1f) << shift` is modelled with
`byte & 0x1f` as `(byte % 32).toNat` (two's-complement AND with 31). -/
def readVarintList : List Nat → Nat → Nat → Nat × Nat
  | [], _shift, result => (result, 1)
  | c :: rest, shift, result =>
    let byte : Int := (c : Int) - 63
    let result' : Nat := result ||| (((byte % 32).toNat) <<< shift)
    if byte ≥ 32 then
      let r := readVarintList rest (shift + 5) result'
      (r.1, r.2 + 1)
    else
      (result', 1)

/-- `result & 1 ? ~(result >> 1) : result >> 1` from `decodePolyline`:
two's-complement decoding of the zigzag-encoded delta. -/
def decodeSigned (result : Nat) : Int :=
  if result % 2 = 1 then Int.negSucc (result >>> 1) else (result >>> 1 : Nat)

/-- The outer `while (index < encoded.length)` loop of `decodePolyline`:
read a latitude varint, then a longitude varint, accumulate the deltas and
emit `{ lat: lat / 1e5, lng: lng / 1e5 }`.  `fuel` bounds the iteration count;
each iteration consumes at least one character, so `encoded.length` iterations
always suffice (see `decodeLoopAux_fuel_sufficient`). -/
def decodeLoopAux : Nat → List Nat → Int → Int → List Coordinates
  | 0, _, _, _ => []
  | _, [], _, _ => []
  | fuel + 1, s@(_ :: _), lat, lng =>
    let rlat := readVarintList s 0 0
    let lat' := lat + decodeSigned rlat.1
    let s1 := s.drop rlat.2
    let rlng := readVarintList s1 0 0
    let lng' := lng + decodeSigned rlng.1
    let s2 := s1.drop rlng.2
    ⟨(lat' : ℚ) / 100000, (lng' : ℚ) / 100000⟩ :: decodeLoopAux fuel s2 lat' lng'

/-- `decodePolyline` from src/polyline.ts.  The guard is the source's
`if (!encoded || encoded.length === 0) return coordinates;`. -/
def decodePolyline (encoded : List Nat) : List Coordinates :=
  if encoded.length = 0 then [] else decodeLoopAux encoded.length encoded 0 0

/-- `interpolatePosition` from src/polyline.ts: linear interpolation with the
fraction clamped to `[0, 1]` (`Math.max(0, Math.min(1, fraction))`). -/
def interpolatePosition (a b : Coordinates) (fraction : ℚ) : Coordinates :=
  let t := max 0 (min 1 fraction)
  ⟨a.lat + (b.lat - a.lat) * t, a.lng + (b.lng - a.lng) * t⟩

/-- `projectPointOntoSegment` from src/polyline.ts.  The planar dot-product
fraction is exact rational arithmetic; the final great-circle distance call is
the `dist` parameter (haversine in the source).  Returns (fraction, distance). -/
def projectPointOntoSegment (dist : Coordinates → Coordinates → ℚ)
    (point segStart segEnd : Coordinates) : ℚ × ℚ :=
  let dx := segEnd.lng - segStart.lng
  let dy := segEnd.lat - segStart.lat
  if dx = 0 ∧ dy = 0 then
    (0, dist point segStart)
  else
    let t := ((point.lng - segStart.lng) * dx + (point.lat - segStart.lat) * dy) /
      (dx * dx + dy * dy)
    let clampedT := max 0 (min 1 t)
    let projectedPoint := interpolatePosition segStart segEnd clampedT
    (clampedT, dist point projectedPoint)

/-- Result record of `findClosestPointOnPolyline`. -/
structure ClosestPointResult where
  segmentIndex : Nat
  fraction : ℚ
  distance : ℚ
deriving DecidableEq, Repr

/-- The `for (let i = 0; i < polyline.length - 1; i++)` scan of
`findClosestPointOnPolyline`, as a fold over the segment indices.  The
accumulator is `(closestSegmentIndex, closestFraction, minDistance)` with
`none` standing for the initial `Infinity` (every comparison against it
succeeds, as in the source). -/
def closestScanStep (dist : Coordinates → Coordinates → ℚ) (point : Coordinates)
    (polyline : List Coordinates) (best : Nat × ℚ × Option ℚ) (i : Nat) :
    Nat × ℚ × Option ℚ :=
  let seg := projectPointOntoSegment dist point (polyline.getD i ⟨0, 0⟩)
    (polyline.getD (i + 1) ⟨0, 0⟩)
  match best with
  | (_, _, none) => (i, seg.1, some seg.2)
  | (bi, bf, some m) =>
    if seg.2 < m then (i, seg.1, some seg.2) else (bi, bf, some m)

/-- `findClosestPointOnPolyline` from src/polyline.ts. -/
def findClosestPointOnPolyline (dist : Coordinates → Coordinates → ℚ)
    (point : Coordinates) (polyline : List Coordinates) :
    Option ClosestPointResult :=
  if polyline.length = 0 then
    none
  else if polyline.length = 1 then
    some ⟨0, 0, dist point (polyline.getD 0 ⟨0, 0⟩)⟩
  else
    let r := (List.range (polyline.length - 1)).foldl
      (closestScanStep dist point polyline) (0, 0, none)
    some ⟨r.1, r.2.1, (r.2.2).getD (dist point (polyline.getD 0 ⟨0, 0⟩))⟩

/-- The per-index projection the scan of `findClosestPointOnPolyline`
computes for segment `i`: the projection of `point` onto
`[polyline[i], polyline[i+1]]`. -/
def segProj (dist : Coordinates → Coordinates → ℚ) (point : Coordinates)
    (polyline : List Coordinates) (i : Nat) : ℚ × ℚ :=
  projectPointOntoSegment dist point (polyline.getD i ⟨0, 0⟩)
    (polyline.getD (i + 1) ⟨0, 0⟩)

/-!  Reference encoder, the inverse direction of the codec.

Modelled from the spec: src/ contains only the decoder; §8 of the spec states
decoding is "a round-trip inverse of the standard encoder", i.e. the standard
Google polyline encoder, which §4.2 describes (5-bit groups, continuation bit
0x20, character offset 63, zigzag sign folding, delta encoding at 1e-5
precision).  The definitions below follow those words. -/

/-- Modelled from the spec: emit the 5-bit groups of a (zigzag-folded,
non-negative) value, low bits first, setting the continuation bit `0x20` on
every group but the last and offsetting each output character by 63.
`fuel` bounds the group count; `v` groups always suffice. -/
def encodeChunksAux : Nat → Nat → List Nat
  | 0, v => [v + 63]
  | fuel + 1, v =>
    if v ≥ 32 then (v % 32 + 32 + 63) :: encodeChunksAux fuel (v / 32) else [v + 63]

/-- Modelled from the spec: the chunk emitter with sufficient fuel. -/
def encodeChunks (v : Nat) : List Nat := encodeChunksAux v v

/-- Modelled from the spec: zigzag sign folding of a signed delta
(`v << 1`, bit-inverted when `v` is negative). -/
def encodeSignedValue (v : Int) : List Nat :=
  encodeChunks (if v < 0 then (-2 * v - 1).toNat else (2 * v).toNat)

/-- Modelled from the spec: encode a list of integer-scaled (1e-5 degree)
coordinates as deltas against the running previous point. -/
def encodeLoop : Int → Int → List (Int × Int) → List Nat
  | _, _, [] => []
  | plat, plng, p :: rest =>
    encodeSignedValue (p.1 - plat) ++ encodeSignedValue (p.2 - plng) ++
      encodeLoop p.1 p.2 rest

/-- Modelled from the spec: the standard polyline encoder, seeded at (0, 0). -/
def encodePolyline (pts : List (Int × Int)) : List Nat := encodeLoop 0 0 pts

end Polyline

namespace Routes

/-!  src/routes.ts  -/

/-- `Waypoint` from src/routes.ts: a coordinate plus an optional pause. -/
structure Waypoint where
  lat : ℚ
  lng : ℚ
  pauseMs : Option ℚ := none
deriving DecidableEq, Repr

/-- `interpolatePosition` from src/routes.ts (legacy).  Unlike the
polyline-module version it does NOT clamp the fraction. -/
def interpolatePosition (lat1 lng1 lat2 lng2 fraction : ℚ) : Coordinates :=
  ⟨lat1 + (lat2 - lat1) * fraction, lng1 + (lng2 - lng1) * fraction⟩

end Routes

namespace DriverSimulator

/-!  src/simulator.ts, class DriverSimulator.

The WebSocket plumbing, logging and timers are outside the navigation core;
the embedded state is the `currentLocation` / route-progress /
stop-completion fields the cited methods read and write. -/

/-- `LocationState` from src/simulator.ts. -/
structure LocationState where
  lat : ℚ
  lng : ℚ
  heading : ℚ
  speed : ℚ
deriving DecidableEq, Repr

/-- The polyline-mode movement state of `DriverSimulator`:
`currentPointIndex`, `segmentProgress` and `currentLocation`. -/
structure PolyState where
  currentPointIndex : Nat
  segmentProgress : ℚ
  loc : LocationState
deriving DecidableEq, Repr

/-- The state the constructor plus `initializeRoute` produce in polyline mode
(a successfully decoded `points`): position at `points[0]`,
`currentPointIndex = 0`, `segmentProgress = 0`, speed 0. -/
def initialPolyState (points : List Coordinates) (heading0 : ℚ) : PolyState :=
  { currentPointIndex := 0
    segmentProgress := 0
    loc := { lat := (points.getD 0 ⟨0, 0⟩).lat, lng := (points.getD 0 ⟨0, 0⟩).lng
             heading := heading0, speed := 0 } }

/-- The `while (this.segmentProgress >= 1 && this.currentPointIndex + 1 <
this.polylinePoints.length)` loop of `updatePositionPolyline`.
`segmentDistance` is the `const` computed before the loop from the segment the
tick started on; the source never updates it inside the loop, so the
`remainingDistance = this.segmentProgress * segmentDistance` conversion always
multiplies by that first segment's length.  `fuel` bounds the iteration count;
every iteration requires `idx + 1 < points.length` and increments `idx`, so
`points.length` iterations always suffice. -/
def boundaryLoopAux (dist : Coordinates → Coordinates → ℚ)
    (points : List Coordinates) (segmentDistance : ℚ) :
    Nat → Nat → ℚ → Nat × ℚ
  | 0, idx, prog => (idx, prog)
  | fuel + 1, idx, prog =>
    if prog ≥ 1 ∧ idx + 1 < points.length then
      let idx' := idx + 1
      let prog' := prog - 1
      let prog'' :=
        if idx' + 1 < points.length then
          let newSegmentDistance :=
            dist (points.getD idx' ⟨0, 0⟩) (points.getD (idx' + 1) ⟨0, 0⟩)
          if newSegmentDistance > 0 then prog' * segmentDistance / newSegmentDistance
          else prog'
        else prog'
      boundaryLoopAux dist points segmentDistance fuel idx' prog''
    else (idx, prog)

/-- `updatePositionPolyline(deltaSeconds)` from src/simulator.ts.
`dist` stands for the imported `haversineDistance` and `bearing` for
`calculateBearing` (both transcendental); `speedMps` is
`this.config.speedMps`; `points` is `this.polylinePoints`. -/
def updatePositionPolyline (dist : Coordinates → Coordinates → ℚ)
    (bearing : Coordinates → Coordinates → ℚ) (speedMps : ℚ)
    (points : List Coordinates) (st : PolyState) (deltaSeconds : ℚ) : PolyState :=
  if points.length < 2 then
    { st with loc := { st.loc with speed := 0 } }
  else
    let currentPoint := points.getD st.currentPointIndex ⟨0, 0⟩
    let nextIndex := st.currentPointIndex + 1
    if nextIndex ≥ points.length then
      { st with currentPointIndex := 0, segmentProgress := 0 }
    else
      let nextPoint := points.getD nextIndex ⟨0, 0⟩
      let segmentDistance := dist currentPoint nextPoint
      let distanceTraveled := speedMps * deltaSeconds
      let progressIncrement :=
        if segmentDistance > 0 then distanceTraveled / segmentDistance else 1
      let prog0 := st.segmentProgress + progressIncrement
      let r := boundaryLoopAux dist points segmentDistance points.length
        st.currentPointIndex prog0
      if r.1 + 1 ≥ points.length then
        { st with currentPointIndex := 0, segmentProgress := 0 }
      else
        let fromPoint := points.getD r.1 ⟨0, 0⟩
        let toPoint := points.getD (r.1 + 1) ⟨0, 0⟩
        let pos := Polyline.interpolatePosition fromPoint toPoint (min r.2 1)
        let heading := bearing ⟨st.loc.lat, st.loc.lng⟩ toPoint
        { currentPointIndex := r.1, segmentProgress := r.2
          loc := { lat := pos.lat, lng := pos.lng, heading := heading
                   speed := speedMps } }

/-- `n` consecutive `updatePosition` ticks in polyline mode (the
`moveInterval` loop calls `updatePosition(1.0)` once per second). -/
def advancePolyN (dist bearing : Coordinates → Coordinates → ℚ) (speedMps : ℚ)
    (points : List Coordinates) (deltaSeconds : ℚ) : Nat → PolyState → PolyState
  | 0, st => st
  | n + 1, st =>
    advancePolyN dist bearing speedMps points deltaSeconds n
      (updatePositionPolyline dist bearing speedMps points st deltaSeconds)

/-- The legacy-mode movement state of `DriverSimulator`:
`currentWaypointIndex`, `segmentProgress`, `isPaused`, `currentLocation`. -/
structure LegacyState where
  currentWaypointIndex : Nat
  segmentProgress : ℚ
  isPaused : Bool
  loc : LocationState
deriving DecidableEq, Repr

/-- `updatePositionLegacy(deltaSeconds)` from src/simulator.ts.
`cDist` stands for the imported legacy `calculateDistance` and `cBearing` for
the legacy `calculateBearing` (both transcendental, taking four scalars).
The `setTimeout` that later clears `isPaused` is an external timer event and
is not part of this synchronous step; the step itself sets `isPaused` exactly
as the source does. -/
def updatePositionLegacy (cDist cBearing : ℚ → ℚ → ℚ → ℚ → ℚ) (speedMps : ℚ)
    (route : List Routes.Waypoint) (st : LegacyState) (deltaSeconds : ℚ) :
    LegacyState :=
  if st.isPaused ∨ route.length < 2 then
    { st with loc := { st.loc with speed := 0 } }
  else
    let currentWaypoint := route.getD st.currentWaypointIndex ⟨0, 0, none⟩
    let nextIndex := (st.currentWaypointIndex + 1) % route.length
    let nextWaypoint := route.getD nextIndex ⟨0, 0, none⟩
    let segmentDistance := cDist currentWaypoint.lat currentWaypoint.lng
      nextWaypoint.lat nextWaypoint.lng
    let distanceTraveled := speedMps * deltaSeconds
    let progressIncrement :=
      if segmentDistance > 0 then distanceTraveled / segmentDistance else 1
    let prog0 := st.segmentProgress + progressIncrement
    let crossed := prog0 ≥ 1
    let idx1 := if crossed then nextIndex else st.currentWaypointIndex
    let prog1 : ℚ := if crossed then 0 else prog0
    let paused1 :=
      if crossed then
        match nextWaypoint.pauseMs with
        | some p => decide (p > 0)
        | none => false
      else st.isPaused
    let pos := Routes.interpolatePosition currentWaypoint.lat currentWaypoint.lng
      nextWaypoint.lat nextWaypoint.lng (min prog1 1)
    let heading := cBearing st.loc.lat st.loc.lng nextWaypoint.lat nextWaypoint.lng
    { currentWaypointIndex := idx1
      segmentProgress := prog1
      isPaused := paused1
      loc := { lat := pos.lat, lng := pos.lng, heading := heading
               speed := if paused1 then 0 else speedMps } }

/-- `n` consecutive `updatePosition` ticks in legacy mode. -/
def advanceLegacyN (cDist cBearing : ℚ → ℚ → ℚ → ℚ → ℚ) (speedMps : ℚ)
    (route : List Routes.Waypoint) (deltaSeconds : ℚ) :
    Nat → LegacyState → LegacyState
  | 0, st => st
  | n + 1, st =>
    advanceLegacyN cDist cBearing speedMps route deltaSeconds n
      (updatePositionLegacy cDist cBearing speedMps route st deltaSeconds)

/-- `StopType` from src/types.ts. -/
inductive StopType where
  | depot_start | delivery | pickup | depot_end
deriving DecidableEq, Repr

/-- `StopStatus` from src/types.ts. -/
inductive StopStatus where
  | pending | en_route | arrived | completed | failed | skipped
deriving DecidableEq, Repr

/-- `RouteStop` from src/types.ts, restricted to the fields the proximity
scan and the completion workflow read (`id`, `type`, `latitude`, `longitude`,
`status`).  `id` and `status` are optional in the source. -/
structure RouteStop where
  id : Option String
  type : StopType
  latitude : ℚ
  longitude : ℚ
  status : Option StopStatus
deriving DecidableEq, Repr

/-- JavaScript falsiness of an optional string: `undefined` or `""`.
Used by `!this.config.routeId` and `!stop.id`. -/
def falsyStr (o : Option String) : Prop := o = none ∨ o = some ""

instance (o : Option String) : Decidable (falsyStr o) := by
  unfold falsyStr; infer_instance

/-- The configuration fields `checkStopProximity` / `completeStop` read:
whether an `apiClient` was supplied, the `routeId`, and the proximity
threshold (`?? 150`). -/
structure TrackerConfig where
  hasApiClient : Bool
  routeId : Option String
  proximityThresholdMeters : Option ℚ
deriving DecidableEq, Repr

/-- The mutable stop-completion state of `DriverSimulator`: the stop list,
the `completedStopIds` set (as a list), the `isCompletingStop` lock and the
driver's current position. -/
structure TrackerState where
  stops : List RouteStop
  completedStopIds : List String
  isCompletingStop : Bool
  currentLat : ℚ
  currentLng : ℚ
deriving DecidableEq, Repr

/-- Outcome of one external API call (`patchStop` / `submitPod`): resolved
true, resolved false, or rejected (the `catch` path). -/
inductive ApiOutcome where
  | success | failure | thrown
deriving DecidableEq, Repr

/-- The `for (const stop of this.stops)` scan of `checkStopProximity`:
skip stops with a falsy `id`/`latitude`/`longitude`, depot stops, and stops
already completed; among the rest keep the closest one strictly within the
threshold.  `best = none` is the initial `closestStop = null` /
`closestDistance = Infinity` pair (a comparison against `Infinity` always
succeeds). -/
def scanLoop (dist : Coordinates → Coordinates → ℚ) (threshold : ℚ)
    (driverPos : Coordinates) (completedIds : List String) :
    List RouteStop → Option (RouteStop × ℚ) → Option (RouteStop × ℚ)
  | [], best => best
  | s :: rest, best =>
    if falsyStr s.id ∨ s.latitude = 0 ∨ s.longitude = 0 then
      scanLoop dist threshold driverPos completedIds rest best
    else if s.type = StopType.depot_start ∨ s.type = StopType.depot_end then
      scanLoop dist threshold driverPos completedIds rest best
    else if s.status = some StopStatus.completed ∨ (s.id.getD "") ∈ completedIds then
      scanLoop dist threshold driverPos completedIds rest best
    else
      let d := dist driverPos ⟨s.latitude, s.longitude⟩
      if d < threshold then
        match best with
        | none => scanLoop dist threshold driverPos completedIds rest (some (s, d))
        | some (b, bd) =>
          if d < bd then scanLoop dist threshold driverPos completedIds rest (some (s, d))
          else scanLoop dist threshold driverPos completedIds rest (some (b, bd))
      else
        scanLoop dist threshold driverPos completedIds rest best

/-- The stop-selection part of `checkStopProximity`: threshold defaulting
(`?? 150`) plus the scan over `this.stops`. -/
def selectStop (cfg : TrackerConfig) (dist : Coordinates → Coordinates → ℚ)
    (st : TrackerState) : Option (RouteStop × ℚ) :=
  scanLoop dist (cfg.proximityThresholdMeters.getD 150)
    ⟨st.currentLat, st.currentLng⟩ st.completedStopIds st.stops none

/-- `completeStop(stop, distance)` from src/simulator.ts.  `arrived` and
`pod` are the outcomes of the two external calls (`patchStop` and
`submitPod`); `thrown` lands in the `catch` block.  Every path after the
initial guard clears `isCompletingStop` before returning (the failure branch
explicitly, all others at the end of the method).  On a successful POD the
stop's `status` field is mutated in place; since the scanned stop is a
reference into `this.stops`, this is modelled as updating every list entry
with the same `id`. -/
def completeStop (cfg : TrackerConfig) (arrived pod : ApiOutcome)
    (stop : RouteStop) (st : TrackerState) : TrackerState :=
  if cfg.hasApiClient = false ∨ falsyStr cfg.routeId ∨ falsyStr stop.id then st
  else
    let st1 := { st with isCompletingStop := true }
    match arrived with
    | ApiOutcome.failure => { st1 with isCompletingStop := false }
    | ApiOutcome.thrown => { st1 with isCompletingStop := false }
    | ApiOutcome.success =>
      match pod with
      | ApiOutcome.success =>
        let stopId := stop.id.getD ""
        { st1 with
          completedStopIds := st1.completedStopIds ++ [stopId]
          stops := st1.stops.map fun s =>
            if s.id = stop.id then { s with status := some StopStatus.completed } else s
          isCompletingStop := false }
      | ApiOutcome.failure => { st1 with isCompletingStop := false }
      | ApiOutcome.thrown => { st1 with isCompletingStop := false }

/-- `checkStopProximity()` from src/simulator.ts: return immediately when a
completion workflow is in flight or no API client / route id is configured;
otherwise scan for the closest qualifying stop and, if one exists, run the
completion workflow on it. -/
def checkStopProximity (cfg : TrackerConfig)
    (dist : Coordinates → Coordinates → ℚ) (arrived pod : ApiOutcome)
    (st : TrackerState) : TrackerState :=
  if st.isCompletingStop then st
  else if cfg.hasApiClient = false ∨ falsyStr cfg.routeId then st
  else
    match selectStop cfg dist st with
    | none => st
    | some (s, _) => completeStop cfg arrived pod s st

end DriverSimulator

/-!  ## Helper lemmas  -/

/-- OR-ing a value shifted past the width of the accumulator is addition:
the 5-bit-group accumulation `result |= group << shift` keeps previously
written bits below `shift`, so the OR never overlaps. -/
theorem lor_shiftLeft_eq_add {a s : Nat} (b : Nat) (h : a < 2 ^ s) :
    a ||| b <<< s = a + b * 2 ^ s := by
  apply Nat.eq_of_testBit_eq
  intro j
  rcases Nat.lt_or_ge j s with hj | hj
  · have hmod : (a + b * 2 ^ s) % 2 ^ s = a := by
      rw [Nat.add_mul_mod_self_right]
      exact Nat.mod_eq_of_lt h
    have h2 := Nat.testBit_mod_two_pow (a + b * 2 ^ s) s j
    rw [hmod, decide_eq_true hj, Bool.true_and] at h2
    rw [Nat.testBit_or, Nat.testBit_shiftLeft, decide_eq_false (by omega : ¬ s ≤ j),
      Bool.false_and, Bool.or_false]
    exact h2
  · have ha : a.testBit j = false :=
      Nat.testBit_lt_two_pow (lt_of_lt_of_le h (Nat.pow_le_pow_right (by norm_num) hj))
    have hdiv : (a + b * 2 ^ s) >>> s = b := by
      rw [Nat.shiftRight_eq_div_pow, Nat.add_mul_div_right _ _ (Nat.two_pow_pos s),
        Nat.div_eq_of_lt h, Nat.zero_add]
    have h3 := @Nat.testBit_shiftRight s (j - s) (a + b * 2 ^ s)
    rw [hdiv, Nat.add_sub_cancel' hj] at h3
    rw [Nat.testBit_or, Nat.testBit_shiftLeft, decide_eq_true hj, Bool.true_and, ha,
      Bool.false_or]
    exact h3

namespace Polyline

/-- Every varint read advances the index by at least one character. -/
theorem readVarintList_consumed_pos :
    ∀ (s : List Nat) (shift result : Nat), 1 ≤ (readVarintList s shift result).2 := by
  intro s
  induction s with
  | nil => intro shift result; simp [readVarintList]
  | cons c rest ih =>
    intro shift result
    simp only [readVarintList]
    split
    · simp
    · simp

/-- The decode loop on an exhausted input yields no points, for any fuel. -/
theorem decodeLoopAux_nil (fuel : Nat) (lat lng : Int) :
    decodeLoopAux fuel [] lat lng = [] := by
  cases fuel <;> rfl

/-- Output-size bound for the decode loop: each emitted point consumes at
least two characters of input (one per varint), so the output length is at
most about half the input length, whatever the fuel. -/
theorem decodeLoopAux_length_le :
    ∀ (fuel : Nat) (s : List Nat) (lat lng : Int),
      2 * (decodeLoopAux fuel s lat lng).length ≤ s.length + 1 := by
  intro fuel
  induction fuel with
  | zero => intro s lat lng; simp [decodeLoopAux]
  | succ f ih =>
    intro s lat lng
    cases s with
    | nil => simp [decodeLoopAux]
    | cons c rest =>
      simp only [decodeLoopAux, List.length_cons]
      have h1 := readVarintList_consumed_pos (c :: rest) 0 0
      have h2 := readVarintList_consumed_pos
        ((c :: rest).drop (readVarintList (c :: rest) 0 0).2) 0 0
      have h3 := ih (((c :: rest).drop (readVarintList (c :: rest) 0 0).2).drop
        (readVarintList ((c :: rest).drop (readVarintList (c :: rest) 0 0).2) 0 0).2)
        (lat + decodeSigned (readVarintList (c :: rest) 0 0).1)
        (lng + decodeSigned
          (readVarintList ((c :: rest).drop (readVarintList (c :: rest) 0 0).2) 0 0).1)
      -- only the list lengths matter below
      simp only [List.length_drop, List.length_cons] at h3 ⊢
      omega

/-- The chunk emitter ignores its fuel as long as the fuel is at least the
value being emitted (the value shrinks by a factor 32 per chunk, the fuel
only by one). -/
theorem encodeChunksAux_congr :
    ∀ (f f' v : Nat), v ≤ f → v ≤ f' → encodeChunksAux f v = encodeChunksAux f' v := by
  intro f
  induction f with
  | zero =>
    intro f' v hf _
    have hv : v = 0 := Nat.le_zero.mp hf
    subst hv
    cases f' with
    | zero => rfl
    | succ g => simp [encodeChunksAux]
  | succ f ih =>
    intro f' v hf hf'
    cases f' with
    | zero =>
      have hv : v = 0 := Nat.le_zero.mp hf'
      subst hv
      simp [encodeChunksAux]
    | succ g =>
      simp only [encodeChunksAux]
      by_cases h32 : v ≥ 32
      · rw [if_pos h32, if_pos h32]
        have hdiv : v / 32 < v := Nat.div_lt_self (by omega) (by norm_num)
        rw [ih g (v / 32) (by omega) (by omega)]
      · rw [if_neg h32, if_neg h32]

/-- Canonical unfolding of the chunk emitter. -/
theorem encodeChunks_eq (v : Nat) :
    encodeChunks v = if v ≥ 32 then (v % 32 + 32 + 63) :: encodeChunks (v / 32)
      else [v + 63] := by
  unfold encodeChunks
  cases v with
  | zero => simp [encodeChunksAux]
  | succ n =>
    simp only [encodeChunksAux]
    by_cases h32 : n + 1 ≥ 32
    · rw [if_pos h32, if_pos h32]
      rw [encodeChunksAux_congr n ((n + 1) / 32) ((n + 1) / 32)
        (by
          have hdiv : (n + 1) / 32 < n + 1 := Nat.div_lt_self (by omega) (by norm_num)
          omega)
        le_rfl]
    · rw [if_neg h32, if_neg h32]

/-- The chunk emitter always emits at least one character. -/
theorem encodeChunks_ne_nil (v : Nat) : encodeChunks v ≠ [] := by
  rw [encodeChunks_eq]
  split <;> simp

/-- Reading back an emitted chunk sequence: the 5-bit groups reassemble to
exactly the emitted value (OR-ed above the `shift` accumulated bits), and the
read consumes exactly the emitted characters. -/
theorem readVarintList_encodeChunks :
    ∀ (v : Nat) (rest : List Nat) (shift acc : Nat), acc < 2 ^ shift →
      readVarintList (encodeChunks v ++ rest) shift acc
        = (acc + v * 2 ^ shift, (encodeChunks v).length) := by
  intro v
  induction v using Nat.strong_induction_on with
  | _ v ih =>
    intro rest shift acc hacc
    rw [encodeChunks_eq v]
    by_cases h32 : v ≥ 32
    · rw [if_pos h32]
      simp only [List.cons_append, readVarintList, List.length_cons]
      have hb : ((v % 32 + 32 + 63 : Nat) : Int) - 63 = ((v % 32 : Nat) : Int) + 32 := by
        push_cast
        ring
      rw [hb]
      have hm : ((((v % 32 : Nat) : Int) + 32) % 32).toNat = v % 32 := by omega
      rw [hm]
      rw [if_pos (by omega : (((v % 32 : Nat) : Int) + 32) ≥ 32)]
      rw [lor_shiftLeft_eq_add (v % 32) hacc]
      have hbound : acc + v % 32 * 2 ^ shift < 2 ^ (shift + 5) := by
        have h31 : v % 32 ≤ 31 := by omega
        calc acc + v % 32 * 2 ^ shift
            < 2 ^ shift + 31 * 2 ^ shift :=
              Nat.add_lt_add_of_lt_of_le hacc (Nat.mul_le_mul_right _ h31)
          _ = 2 ^ (shift + 5) := by
              rw [pow_add]
              ring
      have hdiv : v / 32 < v := Nat.div_lt_self (by omega) (by norm_num)
      simp only [List.append_eq]
      rw [ih (v / 32) hdiv rest (shift + 5) (acc + v % 32 * 2 ^ shift) hbound]
      have hval : acc + v % 32 * 2 ^ shift + v / 32 * 2 ^ (shift + 5)
          = acc + v * 2 ^ shift := by
        rw [pow_add]
        have hv := Nat.mod_add_div v 32
        calc acc + v % 32 * 2 ^ shift + v / 32 * (2 ^ shift * 2 ^ 5)
            = acc + (v % 32 + 32 * (v / 32)) * 2 ^ shift := by ring
          _ = acc + v * 2 ^ shift := by rw [hv]
      rw [hval]
    · rw [if_neg h32]
      simp only [List.singleton_append, readVarintList, List.length_singleton]
      have hb : ((v + 63 : Nat) : Int) - 63 = (v : Int) := by
        push_cast
        ring
      rw [hb]
      have hm : ((v : Int) % 32).toNat = v := by omega
      rw [hm]
      rw [if_neg (by omega : ¬ ((v : Int) ≥ 32))]
      rw [lor_shiftLeft_eq_add v hacc]

/-- Two's-complement zigzag decoding inverts the encoder's sign folding. -/
theorem decodeSigned_zigzag (v : Int) :
    decodeSigned (if v < 0 then (-2 * v - 1).toNat else (2 * v).toNat) = v := by
  unfold decodeSigned
  by_cases hv : v < 0
  · rw [if_pos hv]
    rw [if_pos (by omega : (-2 * v - 1).toNat % 2 = 1)]
    rw [Nat.shiftRight_eq_div_pow]
    rw [Int.negSucc_eq]
    push_cast
    omega
  · rw [if_neg hv]
    rw [if_neg (by omega : ¬ (2 * v).toNat % 2 = 1)]
    rw [Nat.shiftRight_eq_div_pow]
    push_cast
    omega

/-- Reading back one encoded signed delta: the value is recovered and exactly
the emitted characters are consumed. -/
theorem readVarintList_encodeSignedValue (d : Int) (rest : List Nat) :
    decodeSigned (readVarintList (encodeSignedValue d ++ rest) 0 0).1 = d ∧
    (readVarintList (encodeSignedValue d ++ rest) 0 0).2
      = (encodeSignedValue d).length := by
  have h := readVarintList_encodeChunks
    (if d < 0 then (-2 * d - 1).toNat else (2 * d).toNat) rest 0 0 (by norm_num)
  unfold encodeSignedValue
  rw [h]
  constructor
  · simp only [pow_zero, mul_one, Nat.zero_add]
    exact decodeSigned_zigzag d
  · rfl

/-- The emitted form of a signed delta is never empty. -/
theorem encodeSignedValue_ne_nil (d : Int) : encodeSignedValue d ≠ [] :=
  encodeChunks_ne_nil _

/-- Unfolding of one iteration of the decode loop on a non-empty remainder. -/
theorem decodeLoopAux_of_ne_nil (fuel : Nat) (s : List Nat) (lat lng : Int)
    (h : s ≠ []) :
    decodeLoopAux (fuel + 1) s lat lng =
      (⟨((lat + decodeSigned (readVarintList s 0 0).1 : Int) : ℚ) / 100000,
        ((lng + decodeSigned
          (readVarintList (s.drop (readVarintList s 0 0).2) 0 0).1 : Int) : ℚ)
          / 100000⟩ : Coordinates) ::
      decodeLoopAux fuel
        ((s.drop (readVarintList s 0 0).2).drop
          (readVarintList (s.drop (readVarintList s 0 0).2) 0 0).2)
        (lat + decodeSigned (readVarintList s 0 0).1)
        (lng + decodeSigned
          (readVarintList (s.drop (readVarintList s 0 0).2) 0 0).1) := by
  cases s with
  | nil => exact absurd rfl h
  | cons c cs => rfl

/-- Decoding inverts encoding: the decode loop run on the encoder's output,
with matching running accumulators and sufficient fuel, reproduces the
encoded coordinate sequence exactly. -/
theorem decodeLoopAux_encodeLoop :
    ∀ (pts : List (Int × Int)) (plat plng : Int) (fuel : Nat),
      pts.length ≤ fuel →
      decodeLoopAux fuel (encodeLoop plat plng pts) plat plng
        = pts.map (fun p => (⟨(p.1 : ℚ) / 100000, (p.2 : ℚ) / 100000⟩ : Coordinates)) := by
  intro pts
  induction pts with
  | nil =>
    intro plat plng fuel _
    simp only [encodeLoop, List.map_nil]
    exact decodeLoopAux_nil fuel plat plng
  | cons p rest ih =>
    intro plat plng fuel hfuel
    obtain ⟨f, rfl⟩ : ∃ f, fuel = f + 1 :=
      ⟨fuel - 1, by simp only [List.length_cons] at hfuel; omega⟩
    simp only [encodeLoop, List.append_assoc]
    have hne : encodeSignedValue (p.1 - plat) ++
        (encodeSignedValue (p.2 - plng) ++ encodeLoop p.1 p.2 rest) ≠ [] := by
      intro hnil
      rcases List.append_eq_nil.mp hnil with ⟨h1, _⟩
      exact encodeSignedValue_ne_nil _ h1
    rw [decodeLoopAux_of_ne_nil f _ plat plng hne]
    have hr1 := readVarintList_encodeSignedValue (p.1 - plat)
      (encodeSignedValue (p.2 - plng) ++ encodeLoop p.1 p.2 rest)
    rw [hr1.1, hr1.2, List.drop_left]
    have hr2 := readVarintList_encodeSignedValue (p.2 - plng)
      (encodeLoop p.1 p.2 rest)
    rw [hr2.1, hr2.2, List.drop_left]
    have hlat : plat + (p.1 - plat) = p.1 := by ring
    have hlng : plng + (p.2 - plng) = p.2 := by ring
    rw [hlat, hlng]
    rw [ih p.1 p.2 f (by simp only [List.length_cons] at hfuel; omega)]
    simp

/-- The encoder emits at least two characters per point. -/
theorem encodeLoop_length_ge :
    ∀ (pts : List (Int × Int)) (plat plng : Int),
      pts.length ≤ (encodeLoop plat plng pts).length := by
  intro pts
  induction pts with
  | nil => simp [encodeLoop]
  | cons p rest ih =>
    intro plat plng
    simp only [encodeLoop, List.length_append, List.length_cons]
    have h1 : 1 ≤ (encodeSignedValue (p.1 - plat)).length :=
      List.length_pos.mpr (encodeSignedValue_ne_nil _)
    have h2 := ih p.1 p.2
    omega

/-- Invariant of the left-to-right segment scan: after folding the first `k`
segment indices, the accumulator holds the index, fraction and distance of
the closest projection seen so far, the index is the first one attaining that
distance (every earlier index is strictly farther), and the running minimum
is a lower bound for all scanned segments. -/
theorem closestScan_spec (dist : Coordinates → Coordinates → ℚ)
    (point : Coordinates) (polyline : List Coordinates) :
    ∀ k : Nat, 1 ≤ k →
      ∃ bi bf m,
        (List.range k).foldl (closestScanStep dist point polyline) (0, 0, none)
          = (bi, bf, some m) ∧ bi < k ∧
        (bf, m) = segProj dist point polyline bi ∧
        (∀ j, j < k → m ≤ (segProj dist point polyline j).2) ∧
        (∀ j, j < bi → m < (segProj dist point polyline j).2) := by
  intro k
  induction k with
  | zero => omega
  | succ n ih =>
    intro _
    by_cases hn : n = 0
    · subst hn
      refine ⟨0, (segProj dist point polyline 0).1, (segProj dist point polyline 0).2,
        ?_, Nat.zero_lt_one, rfl, ?_, ?_⟩
      · simp [List.range_succ, closestScanStep, segProj]
      · intro j hj
        interval_cases j
        exact le_rfl
      · intro j hj
        omega
    · have hn1 : 1 ≤ n := Nat.one_le_iff_ne_zero.mpr hn
      obtain ⟨bi, bf, m, hfold, hbi, hproj, hmin, hfirst⟩ := ih hn1
      rw [List.range_succ, List.foldl_append, hfold]
      simp only [List.foldl_cons, List.foldl_nil, closestScanStep]
      have hsp : projectPointOntoSegment dist point (polyline.getD n ⟨0, 0⟩)
          (polyline.getD (n + 1) ⟨0, 0⟩) = segProj dist point polyline n := rfl
      rw [hsp]
      by_cases hlt : (segProj dist point polyline n).2 < m
      · rw [if_pos hlt]
        refine ⟨n, (segProj dist point polyline n).1,
          (segProj dist point polyline n).2, rfl, Nat.lt_succ_self n, rfl, ?_, ?_⟩
        · intro j hj
          rcases Nat.lt_succ_iff_lt_or_eq.mp hj with hj' | hj'
          · exact le_of_lt (lt_of_lt_of_le hlt (hmin j hj'))
          · subst hj'
            exact le_rfl
        · intro j hj
          exact lt_of_lt_of_le hlt (hmin j hj)
      · rw [if_neg hlt]
        refine ⟨bi, bf, m, rfl, hbi.trans (Nat.lt_succ_self n), hproj, ?_, hfirst⟩
        intro j hj
        rcases Nat.lt_succ_iff_lt_or_eq.mp hj with hj' | hj'
        · exact hmin j hj'
        · subst hj'
          exact not_lt.mp hlt

end Polyline

namespace DriverSimulator

/-- The boundary-crossing loop is not entered when the progress is below 1. -/
theorem boundaryLoopAux_of_lt_one (dist : Coordinates → Coordinates → ℚ)
    (points : List Coordinates) (segDist : ℚ) (fuel idx : Nat) (prog : ℚ)
    (h : prog < 1) :
    boundaryLoopAux dist points segDist fuel idx prog = (idx, prog) := by
  cases fuel with
  | zero => rfl
  | succ f =>
    unfold boundaryLoopAux
    rw [if_neg]
    intro hc
    exact absurd hc.1 (not_le.mpr h)

/-- One polyline-mode tick with non-positive speed from the start of segment 0
(of positive length): the index stays 0, the progress stays non-positive
(exactly 0 when the speed is exactly 0) and the position stays pinned to the
first point. -/
theorem updatePositionPolyline_nonpos_speed_step
    (dist bearing : Coordinates → Coordinates → ℚ) (speedMps dt : ℚ)
    (points : List Coordinates) (st : PolyState)
    (hlen : 2 ≤ points.length) (hsp : speedMps ≤ 0) (hdt : 0 ≤ dt)
    (hseg : 0 < dist (points.getD 0 ⟨0, 0⟩) (points.getD 1 ⟨0, 0⟩))
    (hidx : st.currentPointIndex = 0) (hprog : st.segmentProgress ≤ 0)
    (hz : speedMps = 0 → st.segmentProgress = 0) :
    (updatePositionPolyline dist bearing speedMps points st dt).currentPointIndex = 0 ∧
    (updatePositionPolyline dist bearing speedMps points st dt).segmentProgress ≤ 0 ∧
    (speedMps = 0 →
      (updatePositionPolyline dist bearing speedMps points st dt).segmentProgress = 0) ∧
    (updatePositionPolyline dist bearing speedMps points st dt).loc.lat
      = (points.getD 0 ⟨0, 0⟩).lat ∧
    (updatePositionPolyline dist bearing speedMps points st dt).loc.lng
      = (points.getD 0 ⟨0, 0⟩).lng := by
  have hmul : speedMps * dt ≤ 0 := mul_nonpos_iff.mpr (Or.inr ⟨hsp, hdt⟩)
  have hinc : speedMps * dt / dist (points.getD 0 ⟨0, 0⟩) (points.getD 1 ⟨0, 0⟩) ≤ 0 :=
    div_nonpos_iff.mpr (Or.inr ⟨hmul, hseg.le⟩)
  have hprog0 : st.segmentProgress +
      speedMps * dt / dist (points.getD 0 ⟨0, 0⟩) (points.getD 1 ⟨0, 0⟩) ≤ 0 :=
    add_nonpos hprog hinc
  unfold updatePositionPolyline
  rw [if_neg (by omega)]
  simp only [hidx, zero_add]
  rw [if_neg (by omega), if_pos hseg,
    boundaryLoopAux_of_lt_one dist points _ points.length 0 _
      (lt_of_le_of_lt hprog0 one_pos)]
  rw [if_neg (by simp only []; omega)]
  simp only [Polyline.interpolatePosition]
  have hmin : min (st.segmentProgress +
      speedMps * dt / dist (points.getD 0 ⟨0, 0⟩) (points.getD 1 ⟨0, 0⟩)) 1
      = st.segmentProgress +
        speedMps * dt / dist (points.getD 0 ⟨0, 0⟩) (points.getD 1 ⟨0, 0⟩) :=
    min_eq_left (hprog0.trans zero_le_one)
  have hclamp : max 0 (min 1 (st.segmentProgress +
      speedMps * dt / dist (points.getD 0 ⟨0, 0⟩) (points.getD 1 ⟨0, 0⟩))) = 0 :=
    max_eq_left ((min_le_right _ _).trans hprog0)
  rw [hmin, hclamp]
  refine ⟨trivial, hprog0, ?_, by ring, by ring⟩
  intro h0
  rw [hz h0, h0]
  norm_num

/-- The non-positive-speed invariant is preserved over any number of
polyline-mode ticks. -/
theorem advancePolyN_nonpos_speed
    (dist bearing : Coordinates → Coordinates → ℚ) (speedMps dt : ℚ)
    (points : List Coordinates)
    (hlen : 2 ≤ points.length) (hsp : speedMps ≤ 0) (hdt : 0 ≤ dt)
    (hseg : 0 < dist (points.getD 0 ⟨0, 0⟩) (points.getD 1 ⟨0, 0⟩)) :
    ∀ (n : Nat) (st : PolyState),
      st.currentPointIndex = 0 → st.segmentProgress ≤ 0 →
      (speedMps = 0 → st.segmentProgress = 0) →
      st.loc.lat = (points.getD 0 ⟨0, 0⟩).lat →
      st.loc.lng = (points.getD 0 ⟨0, 0⟩).lng →
      (advancePolyN dist bearing speedMps points dt n st).currentPointIndex = 0 ∧
      (advancePolyN dist bearing speedMps points dt n st).segmentProgress ≤ 0 ∧
      (speedMps = 0 →
        (advancePolyN dist bearing speedMps points dt n st).segmentProgress = 0) ∧
      (advancePolyN dist bearing speedMps points dt n st).loc.lat
        = (points.getD 0 ⟨0, 0⟩).lat ∧
      (advancePolyN dist bearing speedMps points dt n st).loc.lng
        = (points.getD 0 ⟨0, 0⟩).lng := by
  intro n
  induction n with
  | zero =>
    intro st h1 h2 h3 h4 h5
    exact ⟨h1, h2, h3, h4, h5⟩
  | succ m ih =>
    intro st h1 h2 h3 h4 h5
    have hstep := updatePositionPolyline_nonpos_speed_step dist bearing speedMps dt
      points st hlen hsp hdt hseg h1 h2 h3
    exact ih (updatePositionPolyline dist bearing speedMps points st dt)
      hstep.1 hstep.2.1 hstep.2.2.1 hstep.2.2.2.1 hstep.2.2.2.2

/-- One legacy-mode tick with non-positive speed from the start of segment 0
(of positive length), unpaused: the waypoint index stays 0, the progress stays
non-positive (0 when the speed is 0) and no pause is triggered. -/
theorem updatePositionLegacy_nonpos_speed_step
    (cDist cBearing : ℚ → ℚ → ℚ → ℚ → ℚ) (speedMps dt : ℚ)
    (route : List Routes.Waypoint) (st : LegacyState)
    (hlen : 2 ≤ route.length) (hsp : speedMps ≤ 0) (hdt : 0 ≤ dt)
    (hseg : 0 < cDist (route.getD 0 ⟨0, 0, none⟩).lat (route.getD 0 ⟨0, 0, none⟩).lng
      (route.getD 1 ⟨0, 0, none⟩).lat (route.getD 1 ⟨0, 0, none⟩).lng)
    (hidx : st.currentWaypointIndex = 0) (hprog : st.segmentProgress ≤ 0)
    (hz : speedMps = 0 → st.segmentProgress = 0) (hpause : st.isPaused = false) :
    (updatePositionLegacy cDist cBearing speedMps route st dt).currentWaypointIndex = 0 ∧
    (updatePositionLegacy cDist cBearing speedMps route st dt).segmentProgress ≤ 0 ∧
    (speedMps = 0 →
      (updatePositionLegacy cDist cBearing speedMps route st dt).segmentProgress = 0) ∧
    (updatePositionLegacy cDist cBearing speedMps route st dt).isPaused = false := by
  have hnext : (0 + 1) % route.length = 1 := Nat.mod_eq_of_lt (by omega)
  have hmul : speedMps * dt ≤ 0 := mul_nonpos_iff.mpr (Or.inr ⟨hsp, hdt⟩)
  have hinc : speedMps * dt / cDist (route.getD 0 ⟨0, 0, none⟩).lat
      (route.getD 0 ⟨0, 0, none⟩).lng (route.getD 1 ⟨0, 0, none⟩).lat
      (route.getD 1 ⟨0, 0, none⟩).lng ≤ 0 :=
    div_nonpos_iff.mpr (Or.inr ⟨hmul, hseg.le⟩)
  have hprog0 : st.segmentProgress + speedMps * dt / cDist
      (route.getD 0 ⟨0, 0, none⟩).lat (route.getD 0 ⟨0, 0, none⟩).lng
      (route.getD 1 ⟨0, 0, none⟩).lat (route.getD 1 ⟨0, 0, none⟩).lng ≤ 0 :=
    add_nonpos hprog hinc
  have hcross : ¬ (st.segmentProgress + speedMps * dt / cDist
      (route.getD 0 ⟨0, 0, none⟩).lat (route.getD 0 ⟨0, 0, none⟩).lng
      (route.getD 1 ⟨0, 0, none⟩).lat (route.getD 1 ⟨0, 0, none⟩).lng ≥ 1) :=
    not_le.mpr (lt_of_le_of_lt hprog0 one_pos)
  unfold updatePositionLegacy
  rw [if_neg (by rw [hpause]; simp; omega)]
  simp only [hidx, hnext]
  rw [if_pos hseg]
  simp only [if_neg hcross, hpause]
  refine ⟨trivial, hprog0, ?_, trivial⟩
  intro h0
  rw [hz h0, h0]
  norm_num

/-- The non-positive-speed invariant is preserved over any number of
legacy-mode ticks. -/
theorem advanceLegacyN_nonpos_speed
    (cDist cBearing : ℚ → ℚ → ℚ → ℚ → ℚ) (speedMps dt : ℚ)
    (route : List Routes.Waypoint)
    (hlen : 2 ≤ route.length) (hsp : speedMps ≤ 0) (hdt : 0 ≤ dt)
    (hseg : 0 < cDist (route.getD 0 ⟨0, 0, none⟩).lat (route.getD 0 ⟨0, 0, none⟩).lng
      (route.getD 1 ⟨0, 0, none⟩).lat (route.getD 1 ⟨0, 0, none⟩).lng) :
    ∀ (n : Nat) (st : LegacyState),
      st.currentWaypointIndex = 0 → st.segmentProgress ≤ 0 →
      (speedMps = 0 → st.segmentProgress = 0) → st.isPaused = false →
      (advanceLegacyN cDist cBearing speedMps route dt n st).currentWaypointIndex = 0 ∧
      (advanceLegacyN cDist cBearing speedMps route dt n st).segmentProgress ≤ 0 ∧
      (speedMps = 0 →
        (advanceLegacyN cDist cBearing speedMps route dt n st).segmentProgress = 0) ∧
      (advanceLegacyN cDist cBearing speedMps route dt n st).isPaused = false := by
  intro n
  induction n with
  | zero =>
    intro st h1 h2 h3 h4
    exact ⟨h1, h2, h3, h4⟩
  | succ m ih =>
    intro st h1 h2 h3 h4
    have hstep := updatePositionLegacy_nonpos_speed_step cDist cBearing speedMps dt
      route st hlen hsp hdt hseg h1 h2 h3 h4
    exact ih (updatePositionLegacy cDist cBearing speedMps route st dt)
      hstep.1 hstep.2.1 hstep.2.2.1 hstep.2.2.2

/-- Soundness of the proximity scan: a stop it returns either was already the
running best, or is a member of the scanned list that passed every filter —
non-falsy id/latitude/longitude, not a depot, not completed — and lies
strictly within the threshold at the returned distance. -/
theorem scanLoop_mem_sound (dist : Coordinates → Coordinates → ℚ)
    (threshold : ℚ) (driverPos : Coordinates) (completedIds : List String) :
    ∀ (stops : List RouteStop) (best : Option (RouteStop × ℚ))
      (s : RouteStop) (d : ℚ),
      scanLoop dist threshold driverPos completedIds stops best = some (s, d) →
      best = some (s, d) ∨
      (s ∈ stops ∧ ¬ falsyStr s.id ∧ s.latitude ≠ 0 ∧ s.longitude ≠ 0 ∧
        s.type ≠ StopType.depot_start ∧ s.type ≠ StopType.depot_end ∧
        s.status ≠ some StopStatus.completed ∧ s.id.getD "" ∉ completedIds ∧
        d = dist driverPos ⟨s.latitude, s.longitude⟩ ∧ d < threshold) := by
  intro stops
  induction stops with
  | nil =>
    intro best s d h
    simp only [scanLoop] at h
    exact Or.inl h
  | cons s0 rest ih =>
    intro best s d h
    simp only [scanLoop] at h
    by_cases h1 : falsyStr s0.id ∨ s0.latitude = 0 ∨ s0.longitude = 0
    · rw [if_pos h1] at h
      rcases ih _ _ _ h with hl | hr
      · exact Or.inl hl
      · exact Or.inr ⟨List.mem_cons_of_mem _ hr.1, hr.2⟩
    · rw [if_neg h1] at h
      by_cases h2 : s0.type = StopType.depot_start ∨ s0.type = StopType.depot_end
      · rw [if_pos h2] at h
        rcases ih _ _ _ h with hl | hr
        · exact Or.inl hl
        · exact Or.inr ⟨List.mem_cons_of_mem _ hr.1, hr.2⟩
      · rw [if_neg h2] at h
        by_cases h3 : s0.status = some StopStatus.completed ∨
            s0.id.getD "" ∈ completedIds
        · rw [if_pos h3] at h
          rcases ih _ _ _ h with hl | hr
          · exact Or.inl hl
          · exact Or.inr ⟨List.mem_cons_of_mem _ hr.1, hr.2⟩
        · rw [if_neg h3] at h
          push_neg at h1 h2 h3
          by_cases h4 : dist driverPos ⟨s0.latitude, s0.longitude⟩ < threshold
          · rw [if_pos h4] at h
            rcases best with _ | ⟨b, bd⟩ <;> dsimp only at h
            · rcases ih _ _ _ h with hl | hr
              · rcases Option.some.inj hl with hl'
                rcases Prod.mk.injEq .. ▸ hl' with ⟨hs, hd⟩
                subst hs
                subst hd
                exact Or.inr ⟨List.mem_cons_self _ _, h1.1, h1.2.1, h1.2.2,
                  h2.1, h2.2, h3.1, h3.2, rfl, h4⟩
              · exact Or.inr ⟨List.mem_cons_of_mem _ hr.1, hr.2⟩
            · by_cases h5 : dist driverPos ⟨s0.latitude, s0.longitude⟩ < bd
              · rw [if_pos h5] at h
                rcases ih _ _ _ h with hl | hr
                · rcases Option.some.inj hl with hl'
                  rcases Prod.mk.injEq .. ▸ hl' with ⟨hs, hd⟩
                  subst hs
                  subst hd
                  exact Or.inr ⟨List.mem_cons_self _ _, h1.1, h1.2.1, h1.2.2,
                    h2.1, h2.2, h3.1, h3.2, rfl, h4⟩
                · exact Or.inr ⟨List.mem_cons_of_mem _ hr.1, hr.2⟩
              · rw [if_neg h5] at h
                rcases ih _ _ _ h with hl | hr
                · exact Or.inl hl
                · exact Or.inr ⟨List.mem_cons_of_mem _ hr.1, hr.2⟩
          · rw [if_neg h4] at h
            rcases ih _ _ _ h with hl | hr
            · exact Or.inl hl
            · exact Or.inr ⟨List.mem_cons_of_mem _ hr.1, hr.2⟩

/-- Removing the lock twice in a row is the identity on a state whose lock
was clear. -/
theorem trackerState_clear_lock (st : TrackerState)
    (h : st.isCompletingStop = false) :
    ({ st with isCompletingStop := false } : TrackerState) = st := by
  cases st
  simp_all

end DriverSimulator

/-!  ## Claim theorems  -/

open Polyline Routes DriverSimulator

/-- C7: polyline decoding is a total function (the embedding is a plain
`def`, hence never raises): empty input yields the empty sequence, the output
of any input is a finite coordinate list of at most `(length + 1) / 2`
points (witnessing that the character-reading loops terminate on malformed
input), and a 5-bit-group read that starts past the end of the string
(`charCodeAt` returning `NaN`) terminates at once, contributing nothing and
advancing the index by one. -/
theorem decodePolyline_total_and_guarded (s : List Nat) :
    Polyline.decodePolyline [] = [] ∧
    2 * (Polyline.decodePolyline s).length ≤ s.length + 1 ∧
    (∀ shift result : Nat, Polyline.readVarintList [] shift result = (result, 1)) := by
  refine ⟨rfl, ?_, fun _ _ => rfl⟩
  unfold Polyline.decodePolyline
  split
  · simp
  · exact Polyline.decodeLoopAux_length_le s.length s 0 0

/-- C5: decoding is deterministic (the embedding is a pure function of the
input string) and is a round-trip inverse of the standard encoder: for every
finite sequence of 5-decimal-precision coordinates — given here by their
integer-scaled values, with the valid-coordinate ranges |lat| ≤ 90°,
|lng| ≤ 180° under which the unbounded-integer embedding agrees with the
source's 32-bit JavaScript arithmetic — decoding the encoder's output
reproduces the coordinates exactly (hence within the 1e-5 tolerance). -/
theorem decodePolyline_roundtrip_inverse (pts : List (Int × Int))
    (hrange : ∀ p ∈ pts, p.1.natAbs ≤ 9000000 ∧ p.2.natAbs ≤ 18000000) :
    Polyline.decodePolyline (Polyline.encodePolyline pts)
      = pts.map (fun p => (⟨(p.1 : ℚ) / 100000, (p.2 : ℚ) / 100000⟩ : Coordinates)) := by
  unfold Polyline.decodePolyline Polyline.encodePolyline
  cases pts with
  | nil => simp [Polyline.encodeLoop]
  | cons p rest =>
    have hne : Polyline.encodeLoop 0 0 (p :: rest) ≠ [] := by
      simp only [Polyline.encodeLoop]
      intro hnil
      rcases List.append_eq_nil.mp hnil with ⟨h1, _⟩
      rcases List.append_eq_nil.mp h1 with ⟨h2, _⟩
      exact Polyline.encodeSignedValue_ne_nil _ h2
    rw [if_neg (fun h => hne (List.length_eq_zero.mp h))]
    exact Polyline.decodeLoopAux_encodeLoop (p :: rest) 0 0 _
      (Polyline.encodeLoop_length_ge (p :: rest) 0 0)

/-- C5 witness: the round trip evaluated on a concrete two-point sequence. -/
theorem decodePolyline_roundtrip_witness :
    Polyline.decodePolyline (Polyline.encodePolyline [(1, -2), (3, 4)])
      = [((1 : Int), (-2 : Int)), (3, 4)].map
          (fun p => (⟨(p.1 : ℚ) / 100000, (p.2 : ℚ) / 100000⟩ : Coordinates)) :=
  decodePolyline_roundtrip_inverse [(1, -2), (3, 4)] (by decide)

/-- C9: `findClosestPointOnPolyline` returns `none` exactly for the empty
path; a single-point path yields segment index 0, fraction 0 and the direct
distance to that point; with at least two points the left-to-right scan
returns a result whose (fraction, distance) is the projection onto its own
segment, whose distance is globally minimal over all segments, and whose
segment index is the first attaining that minimum (every earlier segment is
strictly farther — the source updates only on a strict `<`); a zero-length
segment projects to fraction 0 at the distance to the segment start. -/
theorem closest_point_scan_correct (dist : Coordinates → Coordinates → ℚ)
    (point : Coordinates) (polyline : List Coordinates) :
    (Polyline.findClosestPointOnPolyline dist point polyline = none ↔
      polyline = []) ∧
    (polyline.length = 1 →
      Polyline.findClosestPointOnPolyline dist point polyline
        = some ⟨0, 0, dist point (polyline.getD 0 ⟨0, 0⟩)⟩) ∧
    (2 ≤ polyline.length →
      ∃ r : Polyline.ClosestPointResult,
        Polyline.findClosestPointOnPolyline dist point polyline = some r ∧
        r.segmentIndex < polyline.length - 1 ∧
        (r.fraction, r.distance)
          = Polyline.segProj dist point polyline r.segmentIndex ∧
        (∀ j, j < polyline.length - 1 →
          r.distance ≤ (Polyline.segProj dist point polyline j).2) ∧
        (∀ j, j < r.segmentIndex →
          r.distance < (Polyline.segProj dist point polyline j).2)) ∧
    (∀ A : Coordinates,
      Polyline.projectPointOntoSegment dist point A A = (0, dist point A)) := by
  refine ⟨?_, ?_, ?_, ?_⟩
  · unfold Polyline.findClosestPointOnPolyline
    by_cases h0 : polyline.length = 0
    · rw [if_pos h0]
      exact ⟨fun _ => List.length_eq_zero.mp h0, fun _ => rfl⟩
    · rw [if_neg h0]
      by_cases h1 : polyline.length = 1
      · rw [if_pos h1]
        constructor
        · intro h
          exact absurd h (by simp)
        · intro h
          subst h
          exact absurd rfl h0
      · rw [if_neg h1]
        constructor
        · intro h
          exact absurd h (by simp)
        · intro h
          subst h
          exact absurd rfl h0
  · intro h1
    unfold Polyline.findClosestPointOnPolyline
    rw [if_neg (by omega), if_pos h1]
  · intro h2
    unfold Polyline.findClosestPointOnPolyline
    rw [if_neg (by omega), if_neg (by omega)]
    obtain ⟨bi, bf, m, hfold, hbi, hproj, hmin, hfirst⟩ :=
      Polyline.closestScan_spec dist point polyline (polyline.length - 1) (by omega)
    refine ⟨⟨bi, bf, m⟩, ?_, hbi, hproj, hmin, hfirst⟩
    simp only [hfold, Option.getD_some]
  · intro A
    unfold Polyline.projectPointOntoSegment
    rw [if_pos ⟨sub_self A.lng, sub_self A.lat⟩]

/-- C9 witness: the scan evaluated on a concrete three-point path (squared
planar distance as the distance function) and a concrete degenerate
segment. -/
theorem closest_point_scan_correct_witness :
    (∃ r : Polyline.ClosestPointResult,
      Polyline.findClosestPointOnPolyline
        (fun p q => (q.lng - p.lng) * (q.lng - p.lng) +
          (q.lat - p.lat) * (q.lat - p.lat)) ⟨0, 0⟩ [⟨0, 0⟩, ⟨0, 1⟩, ⟨1, 1⟩]
        = some r ∧
      r.segmentIndex < [(⟨0, 0⟩ : Coordinates), ⟨0, 1⟩, ⟨1, 1⟩].length - 1 ∧
      (r.fraction, r.distance)
        = Polyline.segProj (fun p q => (q.lng - p.lng) * (q.lng - p.lng) +
            (q.lat - p.lat) * (q.lat - p.lat)) ⟨0, 0⟩
            [⟨0, 0⟩, ⟨0, 1⟩, ⟨1, 1⟩] r.segmentIndex ∧
      (∀ j, j < [(⟨0, 0⟩ : Coordinates), ⟨0, 1⟩, ⟨1, 1⟩].length - 1 →
        r.distance ≤ (Polyline.segProj (fun p q => (q.lng - p.lng) * (q.lng - p.lng) +
          (q.lat - p.lat) * (q.lat - p.lat)) ⟨0, 0⟩
          [⟨0, 0⟩, ⟨0, 1⟩, ⟨1, 1⟩] j).2) ∧
      (∀ j, j < r.segmentIndex →
        r.distance < (Polyline.segProj (fun p q => (q.lng - p.lng) * (q.lng - p.lng) +
          (q.lat - p.lat) * (q.lat - p.lat)) ⟨0, 0⟩
          [⟨0, 0⟩, ⟨0, 1⟩, ⟨1, 1⟩] j).2)) ∧
    Polyline.projectPointOntoSegment
      (fun p q => (q.lng - p.lng) * (q.lng - p.lng) +
        (q.lat - p.lat) * (q.lat - p.lat)) ⟨0, 0⟩ ⟨2, 2⟩ ⟨2, 2⟩
      = (0, (fun p q : Coordinates => (q.lng - p.lng) * (q.lng - p.lng) +
          (q.lat - p.lat) * (q.lat - p.lat)) ⟨0, 0⟩ ⟨2, 2⟩) :=
  have h := closest_point_scan_correct
    (fun p q => (q.lng - p.lng) * (q.lng - p.lng) +
      (q.lat - p.lat) * (q.lat - p.lat)) ⟨0, 0⟩ [⟨0, 0⟩, ⟨0, 1⟩, ⟨1, 1⟩]
  ⟨h.2.2.1 (by norm_num), h.2.2.2 ⟨2, 2⟩⟩

/-- C1: the multi-boundary overshoot conversion uses a stale segment length.
Inside the `while` loop of `updatePositionPolyline`, the conversion
`remainingDistance = segmentProgress * segmentDistance` always multiplies by
`segmentDistance`, the `const` length of the segment the tick STARTED on —
not the length of the segment just left, because the source never updates the
variable inside the loop.  On segment lengths 10 m, 5 m, 100 m with 20 m of
travel in one tick, the code crosses two boundaries and lands at fraction
1/10 of the third segment (10 m past its start, because the second
conversion multiplies the leftover progress by 10 instead of 5), whereas
exact constant-speed motion lands at fraction (20 - 10 - 5)/100 = 1/20
(5 m past).  This theorem evaluates the embedded code on that input and
exhibits the divergence from the claimed exact final position. -/
theorem overshoot_conversion_keeps_first_segment_distance
    (dist bearing : Coordinates → Coordinates → ℚ) (P0 P1 P2 P3 : Coordinates)
    (h01 : dist P0 P1 = 10) (h12 : dist P1 P2 = 5) (h23 : dist P2 P3 = 100) :
    (DriverSimulator.updatePositionPolyline dist bearing 20 [P0, P1, P2, P3]
      (DriverSimulator.initialPolyState [P0, P1, P2, P3] 0) 1).currentPointIndex = 2 ∧
    (DriverSimulator.updatePositionPolyline dist bearing 20 [P0, P1, P2, P3]
      (DriverSimulator.initialPolyState [P0, P1, P2, P3] 0) 1).segmentProgress
      = 1 / 10 ∧
    (20 * 1 - dist P0 P1 - dist P1 P2) / dist P2 P3 = 1 / 20 ∧
    ((1 : ℚ) / 10) ≠ 1 / 20 ∧
    (DriverSimulator.updatePositionPolyline dist bearing 20 [P0, P1, P2, P3]
      (DriverSimulator.initialPolyState [P0, P1, P2, P3] 0) 1).loc.lat
      = P2.lat + (P3.lat - P2.lat) * (1 / 10) ∧
    (DriverSimulator.updatePositionPolyline dist bearing 20 [P0, P1, P2, P3]
      (DriverSimulator.initialPolyState [P0, P1, P2, P3] 0) 1).loc.lng
      = P2.lng + (P3.lng - P2.lng) * (1 / 10) := by
  have hloop : DriverSimulator.boundaryLoopAux dist [P0, P1, P2, P3] 10 4 0 2
      = (2, 1 / 10) := by
    norm_num [DriverSimulator.boundaryLoopAux, h12, h23]
  refine ⟨?_, ?_, ?_, by norm_num, ?_, ?_⟩ <;>
    norm_num [DriverSimulator.updatePositionPolyline,
      DriverSimulator.initialPolyState, h01, h12, h23, hloop,
      Polyline.interpolatePosition, min_def, max_def]

/-- C1 witness: the stale-distance evaluation on a concrete collinear path
whose consecutive segment lengths under the supplied distance function are
10, 5 and 100. -/
theorem overshoot_conversion_witness :
    (DriverSimulator.updatePositionPolyline (fun p q => q.lng - p.lng)
      (fun _ _ => 0) 20 [⟨0, 0⟩, ⟨0, 10⟩, ⟨0, 15⟩, ⟨0, 115⟩]
      (DriverSimulator.initialPolyState [⟨0, 0⟩, ⟨0, 10⟩, ⟨0, 15⟩, ⟨0, 115⟩] 0)
      1).currentPointIndex = 2 ∧
    (DriverSimulator.updatePositionPolyline (fun p q => q.lng - p.lng)
      (fun _ _ => 0) 20 [⟨0, 0⟩, ⟨0, 10⟩, ⟨0, 15⟩, ⟨0, 115⟩]
      (DriverSimulator.initialPolyState [⟨0, 0⟩, ⟨0, 10⟩, ⟨0, 15⟩, ⟨0, 115⟩] 0)
      1).segmentProgress = 1 / 10 ∧
    ((1 : ℚ) / 10) ≠ 1 / 20 :=
  have h := overshoot_conversion_keeps_first_segment_distance
    (fun p q => q.lng - p.lng) (fun _ _ => 0) ⟨0, 0⟩ ⟨0, 10⟩ ⟨0, 15⟩ ⟨0, 115⟩
    (by norm_num) (by norm_num) (by norm_num)
  ⟨h.1, h.2.1, h.2.2.2.1⟩

/-- C8 counterexample: with `speedMps = -1` on a two-point path of segment
length 1, a single `advance(1.0)` drives `segmentProgress` to -1: it does not
"stay at 0 perpetually" as the claim states (the progress increment
`speedMps * dt / segDist` is negative and nothing clamps the accumulator). -/
theorem negative_speed_progress_not_zero :
    (DriverSimulator.updatePositionPolyline (fun p q => q.lng - p.lng)
        (fun _ _ => 0) (-1) [⟨0, 0⟩, ⟨0, 1⟩]
        (DriverSimulator.initialPolyState [⟨0, 0⟩, ⟨0, 1⟩] 0) 1).segmentProgress
      = -1 ∧ (-1 : ℚ) ≠ 0 := by
  constructor
  · norm_num [DriverSimulator.updatePositionPolyline, DriverSimulator.boundaryLoopAux,
      DriverSimulator.initialPolyState, Polyline.interpolatePosition, min_def, max_def]
  · norm_num

/-- C8 amended: `advance` is embedded as a total function (never raises).
A path or route with fewer than two points degrades to Idle: the state is
unchanged except that the reported speed becomes 0.  A non-positive
`speedMps` produces no forward motion over any number of ticks: the segment
index stays 0, `segmentProgress` stays non-positive (exactly 0 when
`speedMps = 0`, strictly negative progress is reachable for negative speeds —
see the counterexample), the polyline-mode position stays pinned to the first
point, and legacy mode never triggers a pause.  Positive segment length and a
non-negative tick length are assumed, as produced by the haversine distance
and the 1-second driving loop of the source. -/
theorem advance_inert_on_degenerate_or_nonpositive_speed
    (dist bearing : Coordinates → Coordinates → ℚ)
    (cDist cBearing : ℚ → ℚ → ℚ → ℚ → ℚ) (speedMps dt h0 : ℚ)
    (points : List Coordinates) (route : List Routes.Waypoint) (n : Nat)
    (lst : DriverSimulator.LegacyState)
    (hlenP : 2 ≤ points.length) (hlenL : 2 ≤ route.length)
    (hsp : speedMps ≤ 0) (hdt : 0 ≤ dt)
    (hsegP : 0 < dist (points.getD 0 ⟨0, 0⟩) (points.getD 1 ⟨0, 0⟩))
    (hsegL : 0 < cDist (route.getD 0 ⟨0, 0, none⟩).lat
      (route.getD 0 ⟨0, 0, none⟩).lng (route.getD 1 ⟨0, 0, none⟩).lat
      (route.getD 1 ⟨0, 0, none⟩).lng)
    (hl1 : lst.currentWaypointIndex = 0) (hl2 : lst.segmentProgress = 0)
    (hl3 : lst.isPaused = false) :
    (∀ (points' : List Coordinates) (st : DriverSimulator.PolyState),
      points'.length < 2 →
      DriverSimulator.updatePositionPolyline dist bearing speedMps points' st dt
        = { st with loc := { st.loc with speed := 0 } }) ∧
    (∀ (route' : List Routes.Waypoint) (st : DriverSimulator.LegacyState),
      route'.length < 2 →
      DriverSimulator.updatePositionLegacy cDist cBearing speedMps route' st dt
        = { st with loc := { st.loc with speed := 0 } }) ∧
    ((DriverSimulator.advancePolyN dist bearing speedMps points dt n
        (DriverSimulator.initialPolyState points h0)).currentPointIndex = 0 ∧
      (DriverSimulator.advancePolyN dist bearing speedMps points dt n
        (DriverSimulator.initialPolyState points h0)).segmentProgress ≤ 0 ∧
      (speedMps = 0 → (DriverSimulator.advancePolyN dist bearing speedMps points dt n
        (DriverSimulator.initialPolyState points h0)).segmentProgress = 0) ∧
      (DriverSimulator.advancePolyN dist bearing speedMps points dt n
        (DriverSimulator.initialPolyState points h0)).loc.lat
        = (points.getD 0 ⟨0, 0⟩).lat ∧
      (DriverSimulator.advancePolyN dist bearing speedMps points dt n
        (DriverSimulator.initialPolyState points h0)).loc.lng
        = (points.getD 0 ⟨0, 0⟩).lng) ∧
    ((DriverSimulator.advanceLegacyN cDist cBearing speedMps route dt n
        lst).currentWaypointIndex = 0 ∧
      (DriverSimulator.advanceLegacyN cDist cBearing speedMps route dt n
        lst).segmentProgress ≤ 0 ∧
      (DriverSimulator.advanceLegacyN cDist cBearing speedMps route dt n
        lst).isPaused = false) := by
  refine ⟨?_, ?_, ?_, ?_⟩
  · intro points' st h
    unfold DriverSimulator.updatePositionPolyline
    rw [if_pos h]
  · intro route' st h
    unfold DriverSimulator.updatePositionLegacy
    rw [if_pos (Or.inr h)]
  · exact DriverSimulator.advancePolyN_nonpos_speed dist bearing speedMps dt points
      hlenP hsp hdt hsegP n (DriverSimulator.initialPolyState points h0)
      rfl le_rfl (fun _ => rfl) rfl rfl
  · have h := DriverSimulator.advanceLegacyN_nonpos_speed cDist cBearing speedMps dt
      route hlenL hsp hdt hsegL n lst hl1 (le_of_eq hl2) (fun _ => hl2) hl3
    exact ⟨h.1, h.2.1, h.2.2.2⟩

/-- C8 witness: the amended theorem evaluated with speed -1 over three ticks
of a concrete two-point path and route. -/
theorem advance_inert_nonpositive_speed_witness :
    (DriverSimulator.advancePolyN (fun p q => q.lng - p.lng) (fun _ _ => 0)
        (-1) [⟨0, 0⟩, ⟨0, 1⟩] 1 3
        (DriverSimulator.initialPolyState [⟨0, 0⟩, ⟨0, 1⟩] 0)).currentPointIndex = 0 ∧
    (DriverSimulator.advancePolyN (fun p q => q.lng - p.lng) (fun _ _ => 0)
        (-1) [⟨0, 0⟩, ⟨0, 1⟩] 1 3
        (DriverSimulator.initialPolyState [⟨0, 0⟩, ⟨0, 1⟩] 0)).segmentProgress ≤ 0 ∧
    (DriverSimulator.advanceLegacyN (fun _ b _ d => d - b) (fun _ _ _ _ => 0)
        (-1) [⟨0, 0, none⟩, ⟨0, 1, none⟩] 1 3
        ⟨0, 0, false, ⟨0, 0, 0, 0⟩⟩).isPaused = false :=
  have h := advance_inert_on_degenerate_or_nonpositive_speed
    (fun p q => q.lng - p.lng) (fun _ _ => 0) (fun _ b _ d => d - b)
    (fun _ _ _ _ => 0) (-1) 1 0 [⟨0, 0⟩, ⟨0, 1⟩] [⟨0, 0, none⟩, ⟨0, 1, none⟩] 3
    ⟨0, 0, false, ⟨0, 0, 0, 0⟩⟩ (by norm_num) (by norm_num) (by norm_num)
    (by norm_num) (by norm_num) (by norm_num) rfl rfl rfl
  ⟨h.2.2.1.1, h.2.2.1.2.1, h.2.2.2.2.2⟩

/-- C2 counterexample: two-point path [A, B] with A = (0,0), B = (0,1),
speed equal to the segment distance, one `advance(1.0)` tick.  The travel
lands exactly on B, which triggers the end-of-path wrap: the method resets
`currentPointIndex` and `segmentProgress` to 0 and returns early, so the
reported position is still A — not B with `segmentProgress` clamped to 1 as
the claim states. -/
theorem advance_exact_landing_stays_at_start :
    DriverSimulator.updatePositionPolyline (fun p q => q.lng - p.lng)
        (fun _ _ => 0)
        ((fun p q : Coordinates => q.lng - p.lng) ⟨0, 0⟩ ⟨0, 1⟩)
        [⟨0, 0⟩, ⟨0, 1⟩] (DriverSimulator.initialPolyState [⟨0, 0⟩, ⟨0, 1⟩] 0) 1
      = ⟨0, 0, ⟨0, 0, 0, 0⟩⟩ ∧
    (⟨0, 1⟩ : Coordinates).lng ≠ (⟨0, 0, 0, 0⟩ : DriverSimulator.LocationState).lng ∧
    (⟨0, 0, ⟨0, 0, 0, 0⟩⟩ : DriverSimulator.PolyState).segmentProgress ≠ 1 := by
  refine ⟨?_, by norm_num, by norm_num⟩
  norm_num [DriverSimulator.updatePositionPolyline, DriverSimulator.boundaryLoopAux,
    DriverSimulator.initialPolyState]

/-- C2 amended: for a two-point path [A, B] and `speedMps = distance(A, B)`,
a single `advance(1.0)` from the initial navigation state lands exactly on
the final point, so the end-of-path check fires: the navigator wraps
(`currentPointIndex = 0`, `segmentProgress = 0`) and returns without
updating the position — the reported position remains A, the start.  This
holds for every distance function, in particular for the haversine distance
the source uses (when `distance(A, B) ≤ 0` the source's zero-segment guard
produces the same unit progress increment). -/
theorem advance_exact_two_point_wraps (dist bearing : Coordinates → Coordinates → ℚ)
    (A B : Coordinates) (st : DriverSimulator.PolyState)
    (h0 : st.currentPointIndex = 0) (h1 : st.segmentProgress = 0) :
    DriverSimulator.updatePositionPolyline dist bearing (dist A B) [A, B] st 1 = st := by
  have hb : DriverSimulator.boundaryLoopAux dist [A, B] (dist A B) 2 0 1 = (1, 0) := by
    unfold DriverSimulator.boundaryLoopAux
    rw [if_pos (by norm_num)]
    norm_num
    exact DriverSimulator.boundaryLoopAux_of_lt_one dist [A, B] (dist A B) 1 1 0
      (by norm_num)
  have hinc : (if dist A B > 0 then dist A B * 1 / dist A B else 1) = 1 := by
    split
    · rename_i h; field_simp
    · rfl
  unfold DriverSimulator.updatePositionPolyline
  rw [if_neg (by norm_num)]
  simp only [h0, h1, List.getD_cons_zero, List.getD_cons_succ, List.length_cons,
    List.length_nil]
  rw [if_neg (by norm_num)]
  simp only [hinc, zero_add, hb]
  rw [if_pos (by norm_num)]
  rcases st with ⟨i, pr, l⟩
  simp_all

/-- C2 witness: the amended wrap behaviour evaluated on a concrete two-point
path and distance function. -/
theorem advance_exact_two_point_wraps_witness :
    DriverSimulator.updatePositionPolyline (fun p q => q.lng - p.lng)
      (fun _ _ => 0) ((fun p q : Coordinates => q.lng - p.lng) ⟨0, 0⟩ ⟨0, 1⟩)
      [⟨0, 0⟩, ⟨0, 1⟩] (DriverSimulator.initialPolyState [⟨0, 0⟩, ⟨0, 1⟩] 0) 1
      = DriverSimulator.initialPolyState [⟨0, 0⟩, ⟨0, 1⟩] 0 :=
  advance_exact_two_point_wraps (fun p q => q.lng - p.lng) (fun _ _ => 0)
    ⟨0, 0⟩ ⟨0, 1⟩ _ rfl rfl

/-- C3: the completion workflow is all-or-nothing and always releases the
lock.  With no workflow in flight, an API client and route id configured, and
the scan selecting stop `s`: (1) only when both the mark-arrived and the
submit-proof calls succeed is `s` marked completed (its id recorded and every
stops-list entry with that id set to `completed`); (2) any other outcome
combination — including thrown errors, which land in the `catch` block —
leaves the state exactly as it was, with the stop still pending; (3) the
`isCompletingStop` lock is clear after every outcome; and (4) after a failed
mark-arrived call an immediately following `checkStopProximity` selects the
very same stop again (the retry is possible because the lock was released and
nothing changed). -/
theorem completion_workflow_all_or_nothing (cfg : TrackerConfig)
    (dist : Coordinates → Coordinates → ℚ) (st : TrackerState)
    (s : RouteStop) (d : ℚ)
    (hlock : st.isCompletingStop = false)
    (happ : cfg.hasApiClient = true)
    (hroute : ¬ falsyStr cfg.routeId)
    (hsel : DriverSimulator.selectStop cfg dist st = some (s, d)) :
    ((DriverSimulator.checkStopProximity cfg dist ApiOutcome.success
        ApiOutcome.success st).completedStopIds
      = st.completedStopIds ++ [s.id.getD ""] ∧
      ∀ t ∈ st.stops, t.id = s.id →
        ({ t with status := some StopStatus.completed } : RouteStop)
          ∈ (DriverSimulator.checkStopProximity cfg dist ApiOutcome.success
              ApiOutcome.success st).stops) ∧
    (∀ arrived pod : ApiOutcome,
      ¬(arrived = ApiOutcome.success ∧ pod = ApiOutcome.success) →
      DriverSimulator.checkStopProximity cfg dist arrived pod st = st) ∧
    (∀ arrived pod : ApiOutcome,
      (DriverSimulator.checkStopProximity cfg dist arrived pod st).isCompletingStop
        = false) ∧
    (∀ pod : ApiOutcome,
      DriverSimulator.selectStop cfg dist
        (DriverSimulator.checkStopProximity cfg dist ApiOutcome.failure pod st)
        = some (s, d)) := by
  have hsound := DriverSimulator.scanLoop_mem_sound dist
    (cfg.proximityThresholdMeters.getD 150) ⟨st.currentLat, st.currentLng⟩
    st.completedStopIds st.stops none s d hsel
  have hsid : ¬ falsyStr s.id := by
    rcases hsound with hl | hr
    · exact absurd hl (by simp)
    · exact hr.2.1
  have hguard : ¬(cfg.hasApiClient = false ∨ falsyStr cfg.routeId ∨ falsyStr s.id) := by
    push_neg
    exact ⟨by simp [happ], hroute, hsid⟩
  have hstep : ∀ arrived pod : ApiOutcome,
      DriverSimulator.checkStopProximity cfg dist arrived pod st
        = DriverSimulator.completeStop cfg arrived pod s st := by
    intro arrived pod
    unfold DriverSimulator.checkStopProximity
    rw [if_neg (by simp [hlock]), if_neg (by push_neg; exact ⟨by simp [happ], hroute⟩),
      hsel]
  have habort : ∀ arrived pod : ApiOutcome,
      ¬(arrived = ApiOutcome.success ∧ pod = ApiOutcome.success) →
      DriverSimulator.completeStop cfg arrived pod s st = st := by
    intro arrived pod hne
    unfold DriverSimulator.completeStop
    rw [if_neg hguard]
    cases arrived with
    | failure => exact DriverSimulator.trackerState_clear_lock st hlock
    | thrown => exact DriverSimulator.trackerState_clear_lock st hlock
    | success =>
      cases pod with
      | failure => exact DriverSimulator.trackerState_clear_lock st hlock
      | thrown => exact DriverSimulator.trackerState_clear_lock st hlock
      | success => exact absurd ⟨rfl, rfl⟩ hne
  have hsuccess : DriverSimulator.completeStop cfg ApiOutcome.success
      ApiOutcome.success s st
      = { st with
          completedStopIds := st.completedStopIds ++ [s.id.getD ""]
          stops := st.stops.map fun t =>
            if t.id = s.id then { t with status := some StopStatus.completed } else t
          isCompletingStop := false } := by
    unfold DriverSimulator.completeStop
    rw [if_neg hguard]
  refine ⟨⟨?_, ?_⟩, ?_, ?_, ?_⟩
  · rw [hstep, hsuccess]
  · intro t hmem hid
    rw [hstep, hsuccess]
    have : ({ t with status := some StopStatus.completed } : RouteStop)
        = (fun t : RouteStop =>
            if t.id = s.id then { t with status := some StopStatus.completed } else t) t := by
      simp [hid]
    rw [this]
    exact List.mem_map_of_mem _ hmem
  · intro arrived pod hne
    rw [hstep]
    exact habort arrived pod hne
  · intro arrived pod
    rcases Decidable.em (arrived = ApiOutcome.success ∧ pod = ApiOutcome.success)
      with hb | hb
    · rw [hb.1, hb.2, hstep, hsuccess]
    · rw [hstep, habort arrived pod hb]
      exact hlock
  · intro pod
    rw [hstep, habort ApiOutcome.failure pod (by simp)]
    exact hsel

/-- C3 witness: a concrete one-stop state at distance 50 m of a 150 m default
threshold: the failed-mark-arrived tick leaves the state unchanged and still
selecting the same stop, and the all-success tick records the stop id. -/
theorem completion_workflow_all_or_nothing_witness :
    ((DriverSimulator.checkStopProximity ⟨true, some "r1", none⟩ (fun _ _ => 50)
        ApiOutcome.success ApiOutcome.success
        ⟨[⟨some "s1", StopType.delivery, 1, 1, some StopStatus.pending⟩], [],
          false, 0, 0⟩).completedStopIds = [] ++ ["s1"]) ∧
    (DriverSimulator.checkStopProximity ⟨true, some "r1", none⟩ (fun _ _ => 50)
        ApiOutcome.failure ApiOutcome.success
        ⟨[⟨some "s1", StopType.delivery, 1, 1, some StopStatus.pending⟩], [],
          false, 0, 0⟩
      = ⟨[⟨some "s1", StopType.delivery, 1, 1, some StopStatus.pending⟩], [],
          false, 0, 0⟩) := by
  have h := completion_workflow_all_or_nothing ⟨true, some "r1", none⟩
    (fun _ _ => 50)
    ⟨[⟨some "s1", StopType.delivery, 1, 1, some StopStatus.pending⟩], [],
      false, 0, 0⟩
    ⟨some "s1", StopType.delivery, 1, 1, some StopStatus.pending⟩ 50
    rfl rfl (by simp [falsyStr])
    (by
      norm_num [DriverSimulator.selectStop, DriverSimulator.scanLoop, falsyStr]
      decide)
  exact ⟨h.1.1, h.2.1 ApiOutcome.failure ApiOutcome.success (by simp)⟩

/-- C10: the proximity scan skips every stop whose `id` is missing (or empty)
or whose latitude or longitude is exactly 0, because the source tests
`!stop.id || !stop.latitude || !stop.longitude` and `0` is falsy in
JavaScript.  Such a stop is never the selected stop, and (when no other stop
shares its id) a full `checkStopProximity` tick leaves it untouched: it stays
in the stop list with its original status and its id is recorded as completed
only if it already was — even if it is pending, of delivery kind and strictly
within the threshold. -/
theorem zero_coordinate_stop_never_selected (cfg : TrackerConfig)
    (dist : Coordinates → Coordinates → ℚ) (st : TrackerState)
    (stop : RouteStop) (arrived pod : ApiOutcome)
    (hmem : stop ∈ st.stops)
    (hfalsy : stop.id = none ∨ stop.id = some "" ∨ stop.latitude = 0 ∨
      stop.longitude = 0)
    (huniq : ∀ t ∈ st.stops, t.id = stop.id → t = stop) :
    (∀ s d, DriverSimulator.selectStop cfg dist st = some (s, d) → s ≠ stop) ∧
    stop ∈ (DriverSimulator.checkStopProximity cfg dist arrived pod st).stops ∧
    ((stop.id.getD "")
        ∈ (DriverSimulator.checkStopProximity cfg dist arrived pod st).completedStopIds
      ↔ (stop.id.getD "") ∈ st.completedStopIds) := by
  have hnotsel : ∀ s d, DriverSimulator.selectStop cfg dist st = some (s, d) →
      s ≠ stop := by
    intro s d hsel heq
    have hsound := DriverSimulator.scanLoop_mem_sound dist
      (cfg.proximityThresholdMeters.getD 150) ⟨st.currentLat, st.currentLng⟩
      st.completedStopIds st.stops none s d hsel
    rcases hsound with hl | hr
    · exact absurd hl (by simp)
    · subst heq
      rcases hfalsy with h | h | h | h
      · exact hr.2.1 (Or.inl h)
      · exact hr.2.1 (Or.inr h)
      · exact hr.2.2.1 h
      · exact hr.2.2.2.1 h
  refine ⟨hnotsel, ?_⟩
  unfold DriverSimulator.checkStopProximity
  by_cases hl : st.isCompletingStop = true
  · rw [if_pos hl]
    exact ⟨hmem, Iff.rfl⟩
  · rw [if_neg hl]
    by_cases hapi : cfg.hasApiClient = false ∨ falsyStr cfg.routeId
    · rw [if_pos hapi]
      exact ⟨hmem, Iff.rfl⟩
    · rw [if_neg hapi]
      cases hsel : DriverSimulator.selectStop cfg dist st with
      | none =>
        simp only [hsel]
        exact ⟨hmem, trivial⟩
      | some pr =>
        rcases pr with ⟨s, dd⟩
        simp only [hsel]
        have hs_ne : s ≠ stop := hnotsel s dd hsel
        have hsound := DriverSimulator.scanLoop_mem_sound dist
          (cfg.proximityThresholdMeters.getD 150) ⟨st.currentLat, st.currentLng⟩
          st.completedStopIds st.stops none s dd hsel
        have hsmem : s ∈ st.stops ∧ ¬ falsyStr s.id := by
          rcases hsound with hl | hr
          · exact absurd hl (by simp)
          · exact ⟨hr.1, hr.2.1⟩
        have hid_ne : s.id ≠ stop.id := by
          intro hid
          exact hs_ne (huniq s hsmem.1 hid)
        have hgetD_ne : s.id.getD "" ≠ stop.id.getD "" := by
          rcases hfalsy with h | h | h | h
        -- id missing: s.id = some x with x nonempty, stop getD is ""
          · rw [h]
            rcases hx : s.id with _ | x
            · exact absurd (hx ▸ Or.inl rfl : falsyStr s.id) hsmem.2
            · simp only [Option.getD_some, Option.getD_none]
              intro hxe
              exact hsmem.2 (hx ▸ Or.inr (by rw [hxe]) : falsyStr s.id)
          · rw [h]
            rcases hx : s.id with _ | x
            · exact absurd (hx ▸ Or.inl rfl : falsyStr s.id) hsmem.2
            · simp only [Option.getD_some]
              intro hxe
              exact hsmem.2 (hx ▸ Or.inr (by rw [hxe]) : falsyStr s.id)
          · rcases hx : s.id with _ | x
            · exact absurd (hx ▸ Or.inl rfl : falsyStr s.id) hsmem.2
            · rcases hy : stop.id with _ | y
              · simp only [Option.getD_some, Option.getD_none]
                intro hxe
                exact hsmem.2 (hx ▸ Or.inr (by rw [hxe]) : falsyStr s.id)
              · simp only [Option.getD_some]
                intro hxy
                exact hid_ne (by rw [hx, hy, hxy])
          · rcases hx : s.id with _ | x
            · exact absurd (hx ▸ Or.inl rfl : falsyStr s.id) hsmem.2
            · rcases hy : stop.id with _ | y
              · simp only [Option.getD_some, Option.getD_none]
                intro hxe
                exact hsmem.2 (hx ▸ Or.inr (by rw [hxe]) : falsyStr s.id)
              · simp only [Option.getD_some]
                intro hxy
                exact hid_ne (by rw [hx, hy, hxy])
        have hguard : ¬(cfg.hasApiClient = false ∨ falsyStr cfg.routeId ∨
            falsyStr s.id) := by
          push_neg at hapi ⊢
          exact ⟨hapi.1, hapi.2, hsmem.2⟩
        cases arrived with
        | failure =>
          have heq : DriverSimulator.completeStop cfg ApiOutcome.failure pod s st
              = { st with isCompletingStop := false } := by
            unfold DriverSimulator.completeStop
            rw [if_neg hguard]
          rw [heq]
          exact ⟨hmem, Iff.rfl⟩
        | thrown =>
          have heq : DriverSimulator.completeStop cfg ApiOutcome.thrown pod s st
              = { st with isCompletingStop := false } := by
            unfold DriverSimulator.completeStop
            rw [if_neg hguard]
          rw [heq]
          exact ⟨hmem, Iff.rfl⟩
        | success =>
          cases pod with
          | failure =>
            have heq : DriverSimulator.completeStop cfg ApiOutcome.success
                ApiOutcome.failure s st = { st with isCompletingStop := false } := by
              unfold DriverSimulator.completeStop
              rw [if_neg hguard]
            rw [heq]
            exact ⟨hmem, Iff.rfl⟩
          | thrown =>
            have heq : DriverSimulator.completeStop cfg ApiOutcome.success
                ApiOutcome.thrown s st = { st with isCompletingStop := false } := by
              unfold DriverSimulator.completeStop
              rw [if_neg hguard]
            rw [heq]
            exact ⟨hmem, Iff.rfl⟩
          | success =>
            have heq : DriverSimulator.completeStop cfg ApiOutcome.success
                ApiOutcome.success s st
                = { st with
                    completedStopIds := st.completedStopIds ++ [s.id.getD ""]
                    stops := st.stops.map fun t =>
                      if t.id = s.id then
                        { t with status := some StopStatus.completed } else t
                    isCompletingStop := false } := by
              unfold DriverSimulator.completeStop
              rw [if_neg hguard]
            rw [heq]
            constructor
            · have hfix : (fun t : RouteStop =>
                  if t.id = s.id then
                    { t with status := some StopStatus.completed } else t) stop
                  = stop := by
                simp only []
                rw [if_neg (fun hts => hid_ne hts.symm)]
              exact hfix ▸ List.mem_map_of_mem _ hmem
            · simp only [List.mem_append, List.mem_singleton]
              constructor
              · intro hin
                rcases hin with hin | hin
                · exact hin
                · exact absurd hin.symm hgetD_ne
              · intro hin
                exact Or.inl hin

/-- C10 witness: a pending delivery stop sitting exactly on the equator
(latitude 0) 50 m from the driver with the 150 m default threshold; the scan
never selects it and a full tick leaves it pending. -/
theorem zero_coordinate_stop_never_selected_witness :
    (∀ s d, DriverSimulator.selectStop ⟨true, some "r1", none⟩ (fun _ _ => 50)
        ⟨[⟨some "eq1", StopType.delivery, 0, 10, some StopStatus.pending⟩], [],
          false, 0, 0⟩ = some (s, d) →
      s ≠ ⟨some "eq1", StopType.delivery, 0, 10, some StopStatus.pending⟩) ∧
    (⟨some "eq1", StopType.delivery, 0, 10, some StopStatus.pending⟩ : RouteStop)
      ∈ (DriverSimulator.checkStopProximity ⟨true, some "r1", none⟩
          (fun _ _ => 50) ApiOutcome.success ApiOutcome.success
          ⟨[⟨some "eq1", StopType.delivery, 0, 10, some StopStatus.pending⟩], [],
            false, 0, 0⟩).stops ∧
    ((("eq1" : String)
        ∈ (DriverSimulator.checkStopProximity ⟨true, some "r1", none⟩
            (fun _ _ => 50) ApiOutcome.success ApiOutcome.success
            ⟨[⟨some "eq1", StopType.delivery, 0, 10, some StopStatus.pending⟩],
              [], false, 0, 0⟩).completedStopIds)
      ↔ ("eq1" : String) ∈ ([] : List String)) :=
  zero_coordinate_stop_never_selected ⟨true, some "r1", none⟩ (fun _ _ => 50)
    ⟨[⟨some "eq1", StopType.delivery, 0, 10, some StopStatus.pending⟩], [],
      false, 0, 0⟩
    ⟨some "eq1", StopType.delivery, 0, 10, some StopStatus.pending⟩
    ApiOutcome.success ApiOutcome.success
    (by simp)
    (Or.inr (Or.inr (Or.inl rfl)))
    (by intro t ht _; simpa using ht)

/-- C4: at most one completion workflow in flight — whenever the
`isCompletingStop` lock is set, `checkStopProximity` returns immediately with
the state untouched: no scan runs and no stop is selected or acted upon, even
if several stops are within the threshold. -/
theorem checkStopProximity_lock_guard (cfg : TrackerConfig)
    (dist : Coordinates → Coordinates → ℚ) (arrived pod : ApiOutcome)
    (st : TrackerState) (h : st.isCompletingStop = true) :
    DriverSimulator.checkStopProximity cfg dist arrived pod st = st := by
  unfold DriverSimulator.checkStopProximity
  rw [h]
  simp

/-- C4 witness: a state with two pending delivery stops both strictly within
the 150 m default threshold but with the lock held; the tick leaves the state
unchanged (neither stop is completed). -/
theorem checkStopProximity_lock_guard_witness :
    (fun st : TrackerState =>
      DriverSimulator.checkStopProximity ⟨true, some "r1", none⟩
        (fun _ _ => 50) ApiOutcome.success ApiOutcome.success st = st ∧
      (50 : ℚ) < 150)
    ⟨[⟨some "s1", StopType.delivery, 1, 1, some StopStatus.pending⟩,
      ⟨some "s2", StopType.delivery, 2, 2, some StopStatus.pending⟩],
      [], true, 0, 0⟩ :=
  ⟨checkStopProximity_lock_guard ⟨true, some "r1", none⟩ (fun _ _ => 50)
      ApiOutcome.success ApiOutcome.success _ rfl, by norm_num⟩

/-- C6 counterexample: the claim covers the legacy `interpolatePosition` of
src/routes.ts as well, but that version does not clamp the fraction: at
fraction 2 on the segment from (0,0) to (1,1) it returns the extrapolated
point (2,2) instead of the endpoint (1,1) the claim requires for `t >= 1`. -/
theorem legacy_lerp_extrapolates :
    Routes.interpolatePosition 0 0 1 1 2 = ⟨2, 2⟩ ∧
      Routes.interpolatePosition 0 0 1 1 2 ≠ ⟨1, 1⟩ := by
  constructor
  · unfold Routes.interpolatePosition; norm_num
  · unfold Routes.interpolatePosition; norm_num

/-- C6 amended: the polyline-module `interpolatePosition` (src/polyline.ts)
clamps the fraction to [0,1] before interpolating: for `t ≤ 0` it returns the
start point, for `t ≥ 1` the end point, and in every case the result is the
unclamped linear interpolation at some fraction inside [0,1] (never an
extrapolated point).  The legacy src/routes.ts version has no clamp (see the
counterexample). -/
theorem interpolatePosition_clamps (a b : Coordinates) (t : ℚ) :
    (t ≤ 0 → Polyline.interpolatePosition a b t = a) ∧
    (1 ≤ t → Polyline.interpolatePosition a b t = b) ∧
    (∃ u, 0 ≤ u ∧ u ≤ 1 ∧
      Polyline.interpolatePosition a b t =
        ⟨a.lat + (b.lat - a.lat) * u, a.lng + (b.lng - a.lng) * u⟩) := by
  refine ⟨?_, ?_, ?_⟩
  · intro ht
    have h1 : max 0 (min 1 t) = 0 :=
      max_eq_left ((min_le_right 1 t).trans ht)
    unfold Polyline.interpolatePosition
    rw [h1]
    simp
  · intro ht
    have h1 : max 0 (min 1 t) = 1 := by
      rw [min_eq_left ht]
      exact max_eq_right zero_le_one
    unfold Polyline.interpolatePosition
    rw [h1]
    rcases a with ⟨al, an⟩
    rcases b with ⟨bl, bn⟩
    simp only [Coordinates.mk.injEq]
    constructor <;> ring
  · refine ⟨max 0 (min 1 t), le_max_left 0 _, ?_, rfl⟩
    exact max_le zero_le_one (min_le_left 1 t)

/-- C6 witness: the clamping theorem evaluated at t = -1 and t = 2. -/
theorem interpolatePosition_clamps_witness :
    Polyline.interpolatePosition ⟨0, 0⟩ ⟨1, 1⟩ (-1) = ⟨0, 0⟩ ∧
    Polyline.interpolatePosition ⟨0, 0⟩ ⟨1, 1⟩ 2 = ⟨1, 1⟩ :=
  ⟨(interpolatePosition_clamps ⟨0, 0⟩ ⟨1, 1⟩ (-1)).1 (by norm_num),
   (interpolatePosition_clamps ⟨0, 0⟩ ⟨1, 1⟩ 2).2.1 (by norm_num)⟩

end FakeDriverSim
